import Mathlib

/-!
Verification development for the `dim` HTML parser / DOM / CSS-selector
library (single Python module `dim.py`).

The Python source is shallowly embedded: pure functions become Lean
functions, the stateful `DOMBuilder` becomes explicit state passing over
an event stream (tokenizing raw markup is delegated to Python's
`html.parser.HTMLParser` and is out of scope; the spec treats the
tokenizer as an external collaborator producing start-tag / end-tag /
text events annotated with positions), and Python exceptions become
`Except` results.

Nodes inside a tree are identified by their location: a `Loc` couples the
whole tree with the reversed child-index path from the tree root down to
the node (deepest index first).  Python's stored `parent` back-pointers
correspond exactly to dropping the head of that reversed path, and
Python object identity (`is`) for nodes of one tree corresponds to
equality of locations.
-/

/-! ### Python string primitives -/

/-- Python ASCII whitespace class `\s` (re.A): space, TAB, LF, CR, VT, FF.
Also the separator class used by `str.split()` for ASCII input. -/
def pyIsSpace (c : Char) : Bool :=
  c = ' ' || c = '\t' || c = '\n' || c = '\r' || c.toNat = 11 || c.toNat = 12

/-- Python ASCII word character `\w` (re.A): letters, digits, underscore. -/
def pyIsWord (c : Char) : Bool :=
  c.isAlpha || c.isDigit || c = '_'

/-- Character class `[\w-]` used for identifiers throughout the selector
grammar. -/
def pyIsWordHyphen (c : Char) : Bool :=
  pyIsWord c || c = '-'

/-- Length of the maximal leading run of characters satisfying `p`. -/
def takeRun (p : Char → Bool) : List Char → Nat
  | [] => 0
  | c :: cs => if p c then takeRun p cs + 1 else 0

/-- Whitespace splitting on character lists: `cur` accumulates the
current word in reverse. -/
def pySplitGo (cur : List Char) : List Char → List (List Char)
  | [] => if cur.isEmpty then [] else [cur.reverse]
  | c :: rest =>
    if pyIsSpace c then
      if cur.isEmpty then pySplitGo [] rest else cur.reverse :: pySplitGo [] rest
    else
      pySplitGo (c :: cur) rest

/-- Python `str.split()` (no argument): split on whitespace runs,
dropping empty pieces. -/
def pySplit (s : String) : List String :=
  (pySplitGo [] s.data).map String.mk

/-- Python `str.lower()` (character-wise; ASCII-faithful). -/
def pyToLower (s : String) : String :=
  String.mk (s.data.map Char.toLower)

/-- Python `str.startswith(t)`. -/
def pyStartsWith (s t : String) : Bool :=
  t.data.isPrefixOf s.data

/-- Python `str.endswith(t)`. -/
def pyEndsWith (s t : String) : Bool :=
  t.data.isSuffixOf s.data

/-- Python `str.replace(pat, rep)` on character lists: leftmost
non-overlapping occurrences (never called with an empty pattern). -/
def pyReplaceList (pat rep : List Char) : List Char → List Char
  | [] => []
  | c :: rest =>
    if h : pat.isPrefixOf (c :: rest) && !pat.isEmpty then
      rep ++ pyReplaceList pat rep ((c :: rest).drop pat.length)
    else
      c :: pyReplaceList pat rep rest
termination_by s => s.length
decreasing_by
  · have hp : 1 ≤ pat.length := by
      cases pat with
      | nil => simp at h
      | cons p ps => exact Nat.succ_le_succ (Nat.zero_le _)
    simp only [List.length_drop, List.length_cons]
    omega
  · simp only [List.length_cons]
    omega

/-- Python `str.replace(pat, rep)`. -/
def pyReplace (s pat rep : String) : String :=
  String.mk (pyReplaceList pat.data rep.data s.data)

/-- Substring containment, Python's `needle in hay` for strings. -/
def strContains (hay needle : String) : Bool :=
  (List.range (hay.data.length + 1)).any
    (fun k => needle.data.isPrefixOf (hay.data.drop k))

/-- `html.escape` with `quote=True` (the default), as used by both
`ElementNode.__str__` (attribute values) and `TextNode.__str__`. -/
def htmlEscapeChar (c : Char) : String :=
  if c = '&' then "&amp;"
  else if c = '<' then "&lt;"
  else if c = '>' then "&gt;"
  else if c = '"' then "&quot;"
  else if c = '\'' then "&#x27;"
  else String.singleton c

/-- `html.escape` applied to a whole string. -/
def htmlEscape (s : String) : String :=
  String.join (s.data.map htmlEscapeChar)

/-- Python truthiness of an optional string (`if tag:` style tests):
`None` and the empty string are falsy. -/
def truthyOpt : Option String → Bool
  | none => false
  | some s => !s.isEmpty

/-! ### Tree model -/

/-- DOM node: `ElementNode` (lowercased tag, normalized attribute list,
children) or `TextNode` (literal text).  Attribute lists carry
lowercased names, first-occurrence order, unique keys (Python uses an
`OrderedDict`). -/
inductive Node where
  | element (tag : String) (attrs : List (String × String)) (children : List Node)
  | text (s : String)
deriving Repr

mutual

/-- Structural boolean equality on nodes (deriving cannot handle the
nested `List Node`). -/
def Node.beq : Node → Node → Bool
  | .element t1 a1 c1, .element t2 a2 c2 =>
    decide (t1 = t2) && decide (a1 = a2) && nodeListBeq c1 c2
  | .text s1, .text s2 => decide (s1 = s2)
  | _, _ => false

/-- Pointwise `Node.beq` on lists. -/
def nodeListBeq : List Node → List Node → Bool
  | [], [] => true
  | x :: xs, y :: ys => Node.beq x y && nodeListBeq xs ys
  | _, _ => false

end

mutual

theorem Node.beq_iff : ∀ a b : Node, Node.beq a b = true ↔ a = b
  | .element t1 a1 c1, .element t2 a2 c2 => by
    simp only [Node.beq, Bool.and_eq_true, decide_eq_true_eq, Node.element.injEq]
    rw [nodeListBeq_iff c1 c2]
    tauto
  | .element _ _ _, .text _ => by simp [Node.beq]
  | .text _, .element _ _ _ => by simp [Node.beq]
  | .text s1, .text s2 => by simp [Node.beq]

theorem nodeListBeq_iff : ∀ xs ys : List Node, nodeListBeq xs ys = true ↔ xs = ys
  | [], [] => by simp [nodeListBeq]
  | [], _ :: _ => by simp [nodeListBeq]
  | _ :: _, [] => by simp [nodeListBeq]
  | x :: xs, y :: ys => by
    simp only [nodeListBeq, Bool.and_eq_true, List.cons.injEq]
    rw [Node.beq_iff x y, nodeListBeq_iff xs ys]

end

instance : DecidableEq Node :=
  fun a b => decidable_of_iff (Node.beq a b = true) (Node.beq_iff a b)

/-- One `OrderedDict` insertion: an existing key keeps its position but
takes the new value; a fresh key is appended. -/
def insertAttr (acc : List (String × String)) (k v : String) : List (String × String) :=
  if acc.any (fun p => p.1 = k) then
    acc.map (fun p => if p.1 = k then (k, v) else p)
  else
    acc ++ [(k, v)]

/-- `OrderedDict((attr.lower(), val) for attr, val in attrs)` from the
`ElementNode` constructor. -/
def normalizeAttrs (attrs : List (String × String)) : List (String × String) :=
  attrs.foldl (fun acc kv => insertAttr acc (pyToLower kv.1) kv.2) []

/-- The `ElementNode(tag, attrs)` constructor: lowercases the tag,
normalizes attributes, starts with no children. -/
def ElementNode.make (tag : String) (attrs : List (String × String)) : Node :=
  Node.element (pyToLower tag) (normalizeAttrs attrs) []

/-- `node.tag`: `None` on text nodes. -/
def Node.tagOf : Node → Option String
  | .element tag _ _ => some tag
  | .text _ => none

/-- `node.attrs` (empty on text nodes). -/
def Node.attrsOf : Node → List (String × String)
  | .element _ attrs _ => attrs
  | .text _ => []

/-- `node.children` (text nodes have none). -/
def Node.childrenOf : Node → List Node
  | .element _ _ children => children
  | .text _ => []

/-- Replace the children list (the assignment `parent.children = ...`
in `handle_endtag`; only ever reached on element nodes). -/
def Node.withChildren : Node → List Node → Node
  | .element tag attrs _, cs => .element tag attrs cs
  | .text s, _ => .text s

/-- `node.attrs.get(name)`. -/
def pyGet (attrs : List (String × String)) (name : String) : Option String :=
  (attrs.find? (fun p => p.1 = name)).map (fun p => p.2)

/-- `_tag_is_void(tag)`: membership of the lowercased tag in the fixed
void-element set. -/
def tagIsVoid (tag : String) : Bool :=
  ["area", "base", "br", "col", "embed", "hr", "img", "input",
   "link", "meta", "param", "source", "track", "wbr"].contains (pyToLower tag)

mutual

/-- `ElementNode.__str__` / `TextNode.__str__`: HTML rendering. -/
def Node.render : Node → String
  | .element tag attrs children =>
    let s := "<" ++ tag ++
      String.join (attrs.map (fun kv => " " ++ kv.1 ++ "=\"" ++ htmlEscape kv.2 ++ "\""))
    if children.isEmpty then
      if tagIsVoid tag then s ++ "/>" else s ++ "></" ++ tag ++ ">"
    else
      s ++ ">" ++ renderList children ++ "</" ++ tag ++ ">"
  | .text s => htmlEscape s

/-- Concatenated rendering of a children list. -/
def renderList : List Node → String
  | [] => ""
  | c :: cs => c.render ++ renderList cs

end

/-- `node.get?` looks a node up by a top-down child-index path. -/
def Node.get? : Node → List Nat → Option Node
  | n, [] => some n
  | .element _ _ cs, i :: p =>
    match cs[i]? with
    | some c => c.get? p
    | none => none
  | .text _, _ :: _ => none

mutual

/-- Top-down child-index paths of all descendants, in the pre-order
produced by `Node.descendants` (child, then its subtree, then the next
child). -/
def Node.descendantPaths : Node → List (List Nat)
  | .element _ _ cs => descendantPathsList 0 cs
  | .text _ => []

/-- Descendant paths of a children list starting at child index `i`. -/
def descendantPathsList : Nat → List Node → List (List Nat)
  | _, [] => []
  | i, c :: cs =>
    [i] :: (c.descendantPaths.map (fun q => i :: q) ++ descendantPathsList (i + 1) cs)

end

/-! ### Locations (nodes with identity inside a tree) -/

/-- A node inside a tree: the whole tree plus the reversed child-index
path from the tree root to the node (deepest index first).  Following
the Python `parent` pointer is dropping the head of `rpath`. -/
structure Loc where
  tree : Node
  rpath : List Nat
deriving Repr, DecidableEq

/-- The node stored at this location (if the path is valid). -/
def Loc.nodeAt (l : Loc) : Option Node :=
  l.tree.get? l.rpath.reverse

/-- Whether the location points at an existing node. -/
def Loc.valid (l : Loc) : Bool :=
  l.nodeAt.isSome

/-- `node.parent`: `None` at the tree root. -/
def Loc.parentLoc : Loc → Option Loc
  | ⟨_, []⟩ => none
  | ⟨t, _ :: r⟩ => some ⟨t, r⟩

/-- `node.tag` at a location. -/
def Loc.tagOf (l : Loc) : Option String :=
  l.nodeAt.bind Node.tagOf

/-- `node.attrs` at a location. -/
def Loc.attrsOf (l : Loc) : List (String × String) :=
  (l.nodeAt.map Node.attrsOf).getD []

/-- Whether the location holds an `ElementNode` (`isinstance(node, ElementNode)`). -/
def Loc.isElement (l : Loc) : Bool :=
  match l.nodeAt with
  | some (.element _ _ _) => true
  | _ => false

/-- `node.classes`: whitespace-split `class` attribute. -/
def Loc.classes (l : Loc) : List String :=
  pySplit ((pyGet l.attrsOf "class").getD "")

/-- All proper tails of a list (used for ancestor paths). -/
def properTails : List Nat → List (List Nat)
  | [] => []
  | _ :: r => r :: properTails r

/-- The full ancestor chain of a node, immediate parent first, tree root
last.  This is what `node.ancestors()` (no `root` argument) yields. -/
def Loc.ancestorLocs (l : Loc) : List Loc :=
  (properTails l.rpath).map (fun r => Loc.mk l.tree r)

/-- The loop of `Node.ancestors`: walk `parent` pointers, yielding each
ancestor, until the walker reaches `root` (`while ancestor is not
root`); reaching `None` first raises `RuntimeError`.  On normal exit the
provided `root` itself is yielded last (`if root: yield root`; `root`
there is always an element, hence truthy).  The walker is phrased by
structural recursion on the reversed path `r` of the current ancestor
`⟨t, r⟩`: either the walk stops here (ancestor is `root`), or the
ancestor is yielded and the walk moves to its parent — the tail of `r`,
or `None` when `r` is empty. -/
def ancestorsWalk (t : Node) (root : Option Loc) : List Nat → List Loc → Except String (List Loc)
  | [], acc =>
    if root = some (Loc.mk t []) then .ok (acc ++ [Loc.mk t []])
    else
      match root with
      | none => .ok (acc ++ [Loc.mk t []])
      | some _ => .error "provided root node not found in ancestral chain"
  | i :: r', acc =>
    if root = some (Loc.mk t (i :: r')) then .ok (acc ++ [Loc.mk t (i :: r')])
    else ancestorsWalk t root r' (acc ++ [Loc.mk t (i :: r')])

/-- `Node.ancestors(root=...)`: empty if the node itself is `root`
(`if self is root: return`), otherwise the walk starting at
`self.parent` (`None` for a parentless node, in which case the loop
either exits at once — no `root` — or raises). -/
def Loc.ancestors (l : Loc) (root : Option Loc) : Except String (List Loc) :=
  if root = some l then .ok []
  else
    match l.rpath with
    | [] =>
      match root with
      | none => .ok []
      | some _ => .error "provided root node not found in ancestral chain"
    | _ :: r => ancestorsWalk l.tree root r []

/-- `node.previous_siblings()`: siblings before this node, nearest
first; empty at the root. -/
def Loc.previousSiblings : Loc → List Loc
  | ⟨_, []⟩ => []
  | ⟨t, i :: r⟩ => (List.range i).reverse.map (fun j => Loc.mk t (j :: r))

/-- `node.previous_element_sibling()`: nearest preceding element sibling. -/
def Loc.previousElementSibling (l : Loc) : Option Loc :=
  l.previousSiblings.find? Loc.isElement

/-- `node.descendants()`: pre-order descendants of the node at `l`
(empty if the location is invalid, which never happens for locations
inside a real tree). -/
def Loc.descendants (l : Loc) : List Loc :=
  match l.nodeAt with
  | some n => n.descendantPaths.map (fun q => Loc.mk l.tree (q.reverse ++ l.rpath))
  | none => []

/-! ### Selector data model -/

/-- Attribute selector operator kinds (`AttributeSelectorType`). -/
inductive AttributeSelectorType where
  | BARE | EQUAL | TILDE | PIPE | CARET | DOLLAR | ASTERISK
deriving Repr, DecidableEq

/-- Combinator kinds (`Combinator`). -/
inductive Combinator where
  | DESCENDANT | CHILD | NEXT_SIBLING | SUBSEQUENT_SIBLING
deriving Repr, DecidableEq

/-- An attribute selector: name (stored lowercased), optional comparison
value, operator kind. -/
structure AttributeSelector where
  attr : String
  val : Option String
  type : AttributeSelectorType
deriving Repr, DecidableEq

/-- The `AttributeSelector(attr, val, type)` constructor (lowercases the
attribute name). -/
def AttributeSelector.make (attr : String) (val : Option String)
    (type : AttributeSelectorType) : AttributeSelector :=
  ⟨pyToLower attr, val, type⟩

/-- `AttributeSelector.matches(node)`. -/
def AttributeSelector.matchesLoc (a : AttributeSelector) (node : Loc) : Bool :=
  match pyGet node.attrsOf a.attr with
  | none => false
  | some v =>
    match a.type with
    | .BARE => true
    | .EQUAL => a.val = some v
    | .TILDE =>
      match a.val with
      | some req => (pySplit v).contains req
      | none => false
    | .PIPE =>
      -- `val == self.val or val.startswith("%s-" % self.val)`; the
      -- `None` branch mirrors Python's "%s" formatting of None.
      match a.val with
      | some req => v = req || pyStartsWith v (req ++ "-")
      | none => pyStartsWith v "None-"
    | .CARET =>
      match a.val with
      | some req => !req.isEmpty && pyStartsWith v req
      | none => false
    | .DOLLAR =>
      match a.val with
      | some req => !req.isEmpty && pyEndsWith v req
      | none => false
    | .ASTERISK =>
      match a.val with
      | some req => !req.isEmpty && strContains v req
      | none => false

/-- A selector: one sequence of simple selectors, with an optional
combinator and link to the previous (leftward) sequence. -/
inductive Selector where
  | mk (tag : Option String) (classes : List String) (id : Option String)
      (attrs : List AttributeSelector) (combinator : Option Combinator)
      (previous : Option Selector)
deriving Repr

/-- `selector.tag`. -/
def Selector.tag : Selector → Option String
  | .mk t _ _ _ _ _ => t

/-- `selector.classes`. -/
def Selector.classes : Selector → List String
  | .mk _ cs _ _ _ _ => cs

/-- `selector.id`. -/
def Selector.id : Selector → Option String
  | .mk _ _ i _ _ _ => i

/-- `selector.attrs`. -/
def Selector.attrs : Selector → List AttributeSelector
  | .mk _ _ _ a _ _ => a

/-- `selector.combinator`. -/
def Selector.combinator : Selector → Option Combinator
  | .mk _ _ _ _ c _ => c

/-- `selector.previous`. -/
def Selector.previous : Selector → Option Selector
  | .mk _ _ _ _ _ p => p

/-- The `Selector(...)` constructor: `tag.lower() if tag else None`,
`classes or []`, `attrs or []`. -/
def Selector.make (tag : Option String) (classes : List String) (id : Option String)
    (attrs : List AttributeSelector) (combinator : Option Combinator)
    (previous : Option Selector) : Selector :=
  Selector.mk
    (match tag with
     | some t => if t.isEmpty then none else some (pyToLower t)
     | none => none)
    classes id attrs combinator previous

/-- `Selector.matches(node, root=root)`.  Note three faithful details of
the source: the descendant branch scans `node.ancestors()` **without**
passing `root` (the walk never raises there and yields
`Loc.ancestorLocs`); the child and next-sibling branches recurse
**without** propagating `root`; the subsequent-sibling branch does
propagate `root`. -/
def Selector.matchesLoc : Selector → Loc → Option Loc → Bool
  | .mk tag classes id attrs comb prev, node, root =>
    if truthyOpt tag && !(node.tagOf.isSome && node.tagOf = tag) then false
    else if truthyOpt id && !(pyGet node.attrsOf "id" = id) then false
    else if !(classes.all (fun c => node.classes.contains c)) then false
    else if !(attrs.all (fun a => a.matchesLoc node)) then false
    else
      match prev with
      | none => true
      | some p =>
        match comb with
        | some .DESCENDANT =>
          node.ancestorLocs.any (fun anc => p.matchesLoc anc root)
        | some .CHILD =>
          if some node = root || node.parentLoc = none then false
          else
            match node.parentLoc with
            | some par => p.matchesLoc par none
            | none => false
        | some .NEXT_SIBLING =>
          match node.previousElementSibling with
          | none => false
          | some sib => p.matchesLoc sib none
        | some .SUBSEQUENT_SIBLING =>
          (node.previousSiblings.filter Loc.isElement).any
            (fun sib => p.matchesLoc sib root)
        -- A previous sequence without a combinator is unreachable for
        -- parser-produced selectors (the source raises RuntimeError
        -- there, marked "pragma: no cover").
        | none => false

/-- A selector group: comma-separated alternation of selectors. -/
structure SelectorGroup where
  selectors : List Selector
deriving Repr

/-- `SelectorGroup.matches(node, root)`: any member matches. -/
def SelectorGroup.matchesLoc (g : SelectorGroup) (node : Loc) (root : Option Loc) : Bool :=
  g.selectors.any (fun sel => sel.matchesLoc node root)

/-- `Node._select_all(selector)`: pre-order descendants of `self`
matching the group with `root = self`. -/
def Loc.selectAll (l : Loc) (g : SelectorGroup) : List Loc :=
  l.descendants.filter (fun d => g.matchesLoc d (some l))

/-! ### DOM builder -/

/-- `DOMBuilderException`: position (line, offset) plus reason. -/
structure DOMBuilderException where
  pos : Nat × Nat
  why : String
deriving Repr, DecidableEq

/-- One stack slot of the builder: a node plus its `_partial` flag
(`opened = true` means the element is still open). -/
structure StackEntry where
  node : Node
  opened : Bool
deriving Repr, DecidableEq

/-- Builder state: the explicit stack (head = top, i.e. Python's
`self._stack[-1]`) and the current tokenizer position (`self.getpos()`). -/
structure DOMBuilderState where
  stack : List StackEntry
  pos : Nat × Nat
deriving Repr, DecidableEq

/-- Fresh builder (`HTMLParser` starts reporting position (1, 0)). -/
def initBuilder : DOMBuilderState :=
  ⟨[], (1, 0)⟩

/-- Tokenizer events consumed by the builder.  `startEndTag` is the
self-closing spelling (`handle_startendtag`); `textData` is character
data (`handle_data`). -/
inductive Event where
  | startTag (tag : String) (attrs : List (String × String))
  | startEndTag (tag : String) (attrs : List (String × String))
  | endTag (tag : String)
  | textData (s : String)
deriving Repr, DecidableEq

/-- `DOMBuilder.handle_endtag`: pop the closed nodes above the topmost
open node; they become (in reverse pop order) the children of that open
node; error if no open node remains (extra end tag) or the open node's
tag differs from the lowercased incoming tag. -/
def handle_endtag (st : DOMBuilderState) (tag0 : String) :
    Except DOMBuilderException DOMBuilderState :=
  let tag := pyToLower tag0
  let children := st.stack.takeWhile (fun e => !e.opened)
  let rest := st.stack.dropWhile (fun e => !e.opened)
  match rest with
  | [] => .error ⟨st.pos, "extra end tag: " ++ tag⟩
  | pe :: rest' =>
    if pe.node.tagOf ≠ some tag then
      .error ⟨st.pos, "expecting end tag " ++ ((pe.node.tagOf).getD "None") ++ ", got " ++ tag⟩
    else
      .ok { st with
            stack := ⟨pe.node.withChildren ((children.map StackEntry.node).reverse), false⟩
              :: rest' }

/-- `DOMBuilder.handle_starttag`: push a new open element; a void tag is
immediately matched with a synthetic close. -/
def handle_starttag (st : DOMBuilderState) (tag : String)
    (attrs : List (String × String)) : Except DOMBuilderException DOMBuilderState :=
  let st' := { st with stack := ⟨ElementNode.make tag attrs, true⟩ :: st.stack }
  if tagIsVoid tag then handle_endtag st' tag else .ok st'

/-- `DOMBuilder.handle_startendtag`: delegates to `handle_starttag`
(this is what normalizes `<hr/>` and `<hr>` to the same tree). -/
def handle_startendtag (st : DOMBuilderState) (tag : String)
    (attrs : List (String × String)) : Except DOMBuilderException DOMBuilderState :=
  handle_starttag st tag attrs

/-- `DOMBuilder.handle_data`: text before the first tag is discarded;
otherwise a (closed) text node is pushed. -/
def handle_data (st : DOMBuilderState) (s : String) :
    Except DOMBuilderException DOMBuilderState :=
  match st.stack with
  | [] => .ok st
  | _ => .ok { st with stack := ⟨Node.text s, false⟩ :: st.stack }

/-- Dispatch one event. -/
def stepEvent (st : DOMBuilderState) : Event → Except DOMBuilderException DOMBuilderState
  | .startTag tag attrs => handle_starttag st tag attrs
  | .startEndTag tag attrs => handle_startendtag st tag attrs
  | .endTag tag => handle_endtag st tag
  | .textData s => handle_data st s

/-- Feed one positioned event: the tokenizer updates `getpos()` before
invoking the handler. -/
def feedEvent (st : DOMBuilderState) (pe : (Nat × Nat) × Event) :
    Except DOMBuilderException DOMBuilderState :=
  stepEvent { st with pos := pe.1 } pe.2

/-- Feed a whole positioned event stream. -/
def processEvents (st : DOMBuilderState) (evs : List ((Nat × Nat) × Event)) :
    Except DOMBuilderException DOMBuilderState :=
  evs.foldlM feedEvent st

/-- `DOMBuilder.root`: error if the stack is empty (no root tag) or the
bottom-of-stack node (`self._stack[0]`) is still open; otherwise that
bottom node. -/
def DOMBuilderState.root (st : DOMBuilderState) : Except DOMBuilderException Node :=
  match st.stack.getLast? with
  | none => .error ⟨st.pos, "no root tag"⟩
  | some e =>
    if e.opened then .error ⟨st.pos, "root tag not closed yet"⟩
    else .ok e.node

/-- `parse_html` restricted to the event level: feed the stream, then
access `root`. -/
def runEvents (evs : List ((Nat × Nat) × Event)) : Except DOMBuilderException Node :=
  (processEvents initBuilder evs).bind DOMBuilderState.root

/-! ### Selector grammar parser

The regexes of `Selector.from_str` are hand-embedded over `List Char`
with character-index positions (Python regex positions are character
indices).  All matches are anchored at the given position (`re.match(s,
i)` semantics). -/

/-- `SelectorParserException`: input, cursor of failure, reason. -/
structure SelectorParserException where
  s : String
  cursor : Nat
  why : String
deriving Repr, DecidableEq

/-- Characters `a ≤ k < b` of `cs` as a string (a regex capture). -/
def sliceStr (cs : List Char) (a b : Nat) : String :=
  String.mk ((cs.drop a).take (b - a))

/-- End of the run of `\s*` starting at `i`. -/
def skipSpace (cs : List Char) (i : Nat) : Nat :=
  i + takeRun pyIsSpace (cs.drop i)

/-- `TYPE_SEL = [\w-]+` anchored at `i`: end position if it matches. -/
def typeSelEnd (cs : List Char) (i : Nat) : Option Nat :=
  let n := takeRun pyIsWordHyphen (cs.drop i)
  if n = 0 then none else some (i + n)

/-- `UNIVERSAL_SEL = \*` anchored at `i`. -/
def universalSelEnd (cs : List Char) (i : Nat) : Option Nat :=
  if cs[i]? = some '*' then some (i + 1) else none

/-- `CLASS_SEL = \.([\w-]+)`: capture and end position. -/
def classSelMatch (cs : List Char) (i : Nat) : Option (String × Nat) :=
  if cs[i]? = some '.' then
    match typeSelEnd cs (i + 1) with
    | some e => some (sliceStr cs (i + 1) e, e)
    | none => none
  else none

/-- `ID_SEL = #([\w-]+)`: capture and end position. -/
def idSelMatch (cs : List Char) (i : Nat) : Option (String × Nat) :=
  if cs[i]? = some '#' then
    match typeSelEnd cs (i + 1) with
    | some e => some (sliceStr cs (i + 1) e, e)
    | none => none
  else none

/-- `PSEUDO_CLASS_SEL = :[\w-]+(\([^)]+\))?`: end position if matched.
The parenthesized group is optional; `[^)]+` is greedy and must be
followed by `)` for the group to participate. -/
def pseudoClassEnd (cs : List Char) (i : Nat) : Option Nat :=
  if cs[i]? = some ':' then
    let n := takeRun pyIsWordHyphen (cs.drop (i + 1))
    if n = 0 then none
    else
      let j := i + 1 + n
      if cs[j]? = some '(' then
        let m := takeRun (fun c => c ≠ ')') (cs.drop (j + 1))
        if m ≠ 0 && cs[j + 1 + m]? = some ')' then some (j + 1 + m + 1) else some j
      else some j
  else none

/-- `PSEUDO_ELEM_SEL = ::[\w-]+`: end position if matched. -/
def pseudoElemEnd (cs : List Char) (i : Nat) : Option Nat :=
  if cs[i]? = some ':' && cs[i + 1]? = some ':' then
    let n := takeRun pyIsWordHyphen (cs.drop (i + 2))
    if n = 0 then none else some (i + 2 + n)
  else none

/-- The `(?P<op>[~|^$*]?=)` group: operator string and end position. -/
def opMatch (cs : List Char) (i : Nat) : Option (String × Nat) :=
  match cs[i]? with
  | some c =>
    if c = '=' then some ("=", i + 1)
    else if (c = '~' || c = '|' || c = '^' || c = '$' || c = '*')
        && cs[i + 1]? = some '=' then
      some (String.mk [c, '='], i + 2)
    else none
  | none => none

/-- Positions of closing-quote candidates for the non-greedy
`(?P<quote>['"])(?P<val_string_inner>.*?)(?<!\\)(?P=quote)` part:
an occurrence of the quote not preceded by a backslash, with no newline
in between (`.` does not match newlines). -/
def closeQuoteCandidates (cs : List Char) (q : Char) (valStart : Nat) : List Nat :=
  (List.range cs.length).filter (fun m =>
    valStart ≤ m && cs[m]? = some q && cs[m - 1]? ≠ some '\\'
      && !(((cs.drop valStart).take (m - valStart)).contains '\n'))

/-- Quoted-value alternative of the attribute selector: quote character,
raw inner capture, and end position (after `\s*]`).  The non-greedy
inner match backtracks until the continuation `\s*\]` succeeds. -/
def attrStringPart (cs : List Char) (k2 : Nat) : Option (Char × String × Nat) :=
  match cs[k2]? with
  | some q =>
    if q = '\'' || q = '"' then
      match (closeQuoteCandidates cs q (k2 + 1)).find? (fun m =>
          cs[skipSpace cs (m + 1)]? = some ']') with
      | some m => some (q, sliceStr cs (k2 + 1) m, skipSpace cs (m + 1) + 1)
      | none => none
    else none
  | none => none

/-- Identifier-value alternative of the attribute selector: capture and
end position (after `\s*]`). -/
def attrIdentPart (cs : List Char) (k2 : Nat) : Option (String × Nat) :=
  let n := takeRun pyIsWordHyphen (cs.drop k2)
  if n = 0 then none
  else
    let k3 := skipSpace cs (k2 + n)
    if cs[k3]? = some ']' then some (sliceStr cs k2 (k2 + n), k3 + 1) else none

/-- Captures of a successful `ATTR_SEL` match, mirroring the named
regex groups. -/
structure AttrSelMatch where
  endPos : Nat
  attr : String
  op : Option String
  val_identifier : Option String
  quote : Option Char
  val_string_inner : Option String
deriving Repr, DecidableEq

/-- `ATTR_SEL` anchored at `i`.  After `[\s*attr\s*` the optional
`(op value)?` group is tried first (identifier value, then quoted
string value); if it cannot be completed the group is dropped and a
bare `]` is expected — exactly the regex's backtracking order. -/
def attrSelMatch (cs : List Char) (i : Nat) : Option AttrSelMatch :=
  if cs[i]? ≠ some '[' then none
  else
    let j := skipSpace cs (i + 1)
    let n := takeRun pyIsWordHyphen (cs.drop j)
    if n = 0 then none
    else
      let attr := sliceStr cs j (j + n)
      let k := skipSpace cs (j + n)
      let bare : Option AttrSelMatch :=
        if cs[k]? = some ']' then some ⟨k + 1, attr, none, none, none, none⟩ else none
      match opMatch cs k with
      | none => bare
      | some (op, k1) =>
        let k2 := skipSpace cs k1
        match attrIdentPart cs k2 with
        | some (vid, e) => some ⟨e, attr, some op, some vid, none, none⟩
        | none =>
          match attrStringPart cs k2 with
          | some (q, inner, e) => some ⟨e, attr, some op, none, some q, some inner⟩
          | none => bare

/-- Operator string to `AttributeSelectorType` (the chain of `elif`s on
`m.group("op")`); `none` for an operator the code does not recognize
(unreachable, "pragma: no cover"). -/
def opToType : Option String → Option AttributeSelectorType
  | none => some .BARE
  | some op =>
    if op = "=" then some .EQUAL
    else if op = "~=" then some .TILDE
    else if op = "|=" then some .PIPE
    else if op = "^=" then some .CARET
    else if op = "$=" then some .DOLLAR
    else if op = "*=" then some .ASTERISK
    else none

/-- Accumulator for one sequence of simple selectors (the local
variables `tag`, `classes`, `id`, `attrs` of `Selector.from_str`). -/
structure SeqAcc where
  tag : Option String
  classes : List String
  id : Option String
  attrs : List AttributeSelector
deriving Repr, DecidableEq

/-- Fresh accumulator. -/
def emptyAcc : SeqAcc := ⟨none, [], none, []⟩

/-- Parse one simple selector at `i` (the `if/elif` chain of the loop
body): type, universal, attribute, class, ID, then the explicit
rejections.  A second type selector or a second ID selector in the same
sequence is an error, not last-wins. -/
def parseSimpleSelector (s : String) (cs : List Char) (i : Nat) (acc : SeqAcc) :
    Except SelectorParserException (SeqAcc × Nat) :=
  match typeSelEnd cs i with
  | some e =>
    if truthyOpt acc.tag then .error ⟨s, i, "multiple type selectors found"⟩
    else .ok ({ acc with tag := some (sliceStr cs i e) }, e)
  | none =>
  match universalSelEnd cs i with
  | some e => .ok (acc, e)
  | none =>
  match attrSelMatch cs i with
  | some m =>
    let val : Option String :=
      match m.val_identifier with
      | some vi => some vi
      | none =>
        match m.val_string_inner, m.quote with
        | some inner, some q =>
          some (pyReplace inner ((String.singleton '\\').push q) (String.singleton q))
        | _, _ => none
    match opToType m.op with
    | some type =>
      .ok ({ acc with attrs := acc.attrs ++ [AttributeSelector.make m.attr val type] },
           m.endPos)
    | none => .error ⟨s, i, "unrecognized operator in attribute selector"⟩
  | none =>
  match classSelMatch cs i with
  | some (cls, e) => .ok ({ acc with classes := acc.classes ++ [cls] }, e)
  | none =>
  match idSelMatch cs i with
  | some (idCap, e) =>
    if truthyOpt acc.id then .error ⟨s, i, "multiple id selectors found"⟩
    else .ok ({ acc with id := some idCap }, e)
  | none =>
  if (pseudoClassEnd cs i).isSome then .error ⟨s, i, "pseudo-classes not supported"⟩
  else if (pseudoElemEnd cs i).isSome then .error ⟨s, i, "pseudo-elements not supported"⟩
  else .error ⟨s, i, "expecting simple selector, found none"⟩

/-- Result of the combinator-or-end attempt after a simple selector:
either one of the five alternatives matched (`comb = none` means
end-of-selector), or none did and the loop continues with the next
simple selector (Python's `continue`). -/
inductive CombResult where
  | found (comb : Option Combinator) (next : Nat)
  | noMatch
deriving Repr, DecidableEq

/-- Try, in the source's priority order: `CHILD_COM = \s*>\s*`,
`NEXT_SIB_COM = \s*\+\s*`, `SUB_SIB_COM = \s*~\s*`,
`END_OF_SELECTOR = \s*($|,)`, and last `DESCENDANT_COM = \s+`. -/
def combMatch (cs : List Char) (i : Nat) : CombResult :=
  let k := skipSpace cs i
  if cs[k]? = some '>' then .found (some .CHILD) (skipSpace cs (k + 1))
  else if cs[k]? = some '+' then .found (some .NEXT_SIBLING) (skipSpace cs (k + 1))
  else if cs[k]? = some '~' then .found (some .SUBSEQUENT_SIBLING) (skipSpace cs (k + 1))
  else if k = cs.length then .found none k
  else if cs[k]? = some ',' then .found none (k + 1)
  else if i < k then .found (some .DESCENDANT) k
  else .noMatch

/-- The `while i < len(s)` loop of `Selector.from_str`.  Fuel only
bounds the recursion; `s.length + 1` is always enough because every
iteration consumes at least one character. -/
def selectorLoop (s : String) (cs : List Char) :
    Nat → Nat → SeqAcc → Option Selector → Option Combinator →
    Except SelectorParserException (Selector × Nat)
  | 0, i, _, _, _ => .error ⟨s, i, "parser fuel exhausted"⟩
  | fuel + 1, i, acc, selector, prevComb =>
    if i < cs.length then
      match parseSimpleSelector s cs i acc with
      | .error e => .error e
      | .ok (acc', i1) =>
        match combMatch cs i1 with
        | .noMatch => selectorLoop s cs fuel i1 acc' selector prevComb
        | .found comb i2 =>
          if comb.isSome && i2 = cs.length then
            .error ⟨s, i2, "unexpected end at combinator"⟩
          else
            let sel' := Selector.make acc'.tag acc'.classes acc'.id acc'.attrs
              prevComb selector
            match comb with
            | none => .ok (sel', i2)
            | some _ => selectorLoop s cs fuel i2 emptyAcc (some sel') comb
    else
      match selector with
      | none => .error ⟨s, i, "selector is empty"⟩
      | some sel => .ok (sel, i)

/-- `Selector.from_str(s, cursor)`: skip leading whitespace, then run
the loop. -/
def Selector.from_str (s : String) (cursor : Nat) :
    Except SelectorParserException (Selector × Nat) :=
  let cs := s.data
  selectorLoop s cs (cs.length + 1) (skipSpace cs cursor) emptyAcc none none

/-- The `while i < len(s)` loop of `SelectorGroup.from_str`: repeated
single-selector parses; returns the collected selectors and the final
cursor. -/
def groupLoop (s : String) :
    Nat → Nat → List Selector →
    Except SelectorParserException (List Selector × Nat)
  | 0, i, _ => .error ⟨s, i, "parser fuel exhausted"⟩
  | fuel + 1, i, sels =>
    if i < s.data.length then
      match Selector.from_str s i with
      | .error e => .error e
      | .ok (sel, i') => groupLoop s fuel i' (sels ++ [sel])
    else .ok (sels, i)

/-- `SelectorGroup.from_str(s)`: parse selectors until end of string;
an empty collection is an error. -/
def SelectorGroup.from_str (s : String) :
    Except SelectorParserException SelectorGroup :=
  match groupLoop s (s.data.length + 1) 0 [] with
  | .error e => .error e
  | .ok ([], i) => .error ⟨s, i, "selector group is empty"⟩
  | .ok (sels, _) => .ok ⟨sels⟩

/-- `node.select_all(text)`: parse the selector text, then filter the
pre-order descendants (`Node._select_all` with `root = self`). -/
def Loc.selectAllStr (l : Loc) (sel : String) :
    Except SelectorParserException (List Loc) :=
  (SelectorGroup.from_str sel).map (fun g => l.selectAll g)

/-! ### Claims -/

/-- A string's `isEmpty` is false exactly when it is not `""`. -/
theorem isEmpty_false_iff (s : String) : (s.isEmpty = false) ↔ s ≠ "" := by
  rw [Bool.eq_false_iff, Ne, not_iff_not]
  exact String.isEmpty_iff s

/-- C2: `AttributeSelector.matches` returns false whenever the named
attribute is absent, for every operator kind; when present with value
`v`: presence is always true; exact compares `v` with the required
value; token checks membership among whitespace-split tokens; hyphen
accepts equality or the required value followed by `-`; prefix, suffix
and substring check `startswith` / `endswith` / containment and are
false for an empty required value. -/
theorem attributeSelector_matches_cases (a : AttributeSelector) (node : Loc) :
    (pyGet node.attrsOf a.attr = none → a.matchesLoc node = false) ∧
    (∀ v, pyGet node.attrsOf a.attr = some v →
      (a.type = .BARE → a.matchesLoc node = true) ∧
      (∀ req, a.val = some req →
        (a.type = .EQUAL → (a.matchesLoc node = true ↔ v = req)) ∧
        (a.type = .TILDE → (a.matchesLoc node = true ↔ req ∈ pySplit v)) ∧
        (a.type = .PIPE →
          (a.matchesLoc node = true ↔ v = req ∨ pyStartsWith v (req ++ "-") = true)) ∧
        (a.type = .CARET →
          (a.matchesLoc node = true ↔ req ≠ "" ∧ pyStartsWith v req = true)) ∧
        (a.type = .DOLLAR →
          (a.matchesLoc node = true ↔ req ≠ "" ∧ pyEndsWith v req = true)) ∧
        (a.type = .ASTERISK →
          (a.matchesLoc node = true ↔ req ≠ "" ∧ strContains v req = true)))) := by
  constructor
  · intro h
    simp [AttributeSelector.matchesLoc, h]
  · intro v hv
    constructor
    · intro ht
      simp [AttributeSelector.matchesLoc, hv, ht]
    · intro req hreq
      obtain ⟨nm, aval, ty⟩ := a
      simp only at hreq hv
      subst hreq
      refine ⟨fun ht => ?_, fun ht => ?_, fun ht => ?_, fun ht => ?_, fun ht => ?_,
        fun ht => ?_⟩ <;> simp only at ht <;> subst ht
      · simp only [AttributeSelector.matchesLoc, hv, decide_eq_true_eq,
          Option.some.injEq]
        exact eq_comm
      · simp [AttributeSelector.matchesLoc, hv, List.elem_iff]
      · simp [AttributeSelector.matchesLoc, hv]
      · simp [AttributeSelector.matchesLoc, hv, isEmpty_false_iff]
      · simp [AttributeSelector.matchesLoc, hv, isEmpty_false_iff]
      · simp [AttributeSelector.matchesLoc, hv, isEmpty_false_iff]

/-- Witness for C2 at concrete inputs: an absent attribute never
matches; `[x^=a]` matches `x="a-b-c"`. -/
theorem attributeSelector_matches_cases_witness :
    (AttributeSelector.mk "t" (some "v") .EQUAL).matchesLoc
      (Loc.mk (Node.text "z") []) = false ∧
    (AttributeSelector.mk "x" (some "a") .CARET).matchesLoc
      (Loc.mk (Node.element "p" [("x", "a-b-c")] []) []) = true := by
  constructor
  · exact (attributeSelector_matches_cases _ _).1 (by decide)
  · exact (((attributeSelector_matches_cases _ _).2 "a-b-c" (by decide)).2 "a"
      rfl).2.2.2.1 rfl |>.mpr (by decide)

/-- C9: parsing the universal selector `*` yields a sequence with no
tag, no classes, no ID, no attribute predicates and no previous
sequence; such a sequence matches every node, text nodes included, so
`select_all("*")` also returns text nodes (here the text child of
`<a>hello</a>`). -/
theorem universal_selector_matches_text_nodes :
    Selector.from_str "*" 0 = .ok (Selector.mk none [] none [] none none, 1) ∧
    (∀ (node : Loc) (root : Option Loc),
      (Selector.mk none [] none [] none none).matchesLoc node root = true) ∧
    (Loc.mk (Node.element "a" [] [Node.text "hello"]) []).selectAllStr "*" =
      .ok [Loc.mk (Node.element "a" [] [Node.text "hello"]) [0]] ∧
    (Loc.mk (Node.element "a" [] [Node.text "hello"]) [0]).nodeAt =
      some (Node.text "hello") := by
  refine ⟨by rfl, fun node root => ?_, by rfl, by rfl⟩
  simp [Selector.matchesLoc, truthyOpt]

/-- Modelled from the spec's wording for C7: the "order-preserving
union (by pre-order position)" of two result lists — those pre-order
descendants that occur in either list. -/
def preOrderUnion (l : Loc) (xs ys : List Loc) : List Loc :=
  l.descendants.filter (fun d => decide (d ∈ xs) || decide (d ∈ ys))

/-- C7: `select_all` on a two-selector group equals the order-preserving
union, in pre-order position, of the two singleton `select_all` results,
and is independent of the order in which the two selectors are listed
(shown both for parsed groups in general and for the texts `"p, div"`
and `"div, p"` on a concrete tree). -/
theorem selectAll_alternation (l : Loc) (a b : Selector) :
    (Loc.selectAll l ⟨[a, b]⟩ =
      preOrderUnion l (Loc.selectAll l ⟨[a]⟩) (Loc.selectAll l ⟨[b]⟩)) ∧
    (Loc.selectAll l ⟨[a, b]⟩ = Loc.selectAll l ⟨[b, a]⟩) ∧
    ((Loc.mk (Node.element "u" [] [Node.element "p" [] [], Node.element "div" [] []])
        []).selectAllStr "p, div" =
      .ok [Loc.mk (Node.element "u" []
              [Node.element "p" [] [], Node.element "div" [] []]) [0],
           Loc.mk (Node.element "u" []
              [Node.element "p" [] [], Node.element "div" [] []]) [1]]) ∧
    ((Loc.mk (Node.element "u" [] [Node.element "p" [] [], Node.element "div" [] []])
        []).selectAllStr "div, p" =
      .ok [Loc.mk (Node.element "u" []
              [Node.element "p" [] [], Node.element "div" [] []]) [0],
           Loc.mk (Node.element "u" []
              [Node.element "p" [] [], Node.element "div" [] []]) [1]]) := by
  refine ⟨?_, ?_, by rfl, by rfl⟩
  · unfold Loc.selectAll preOrderUnion
    apply List.filter_congr
    intro d hd
    have ha : d ∈ Loc.selectAll l ⟨[a]⟩ ↔ a.matchesLoc d (some l) = true := by
      simp [Loc.selectAll, List.mem_filter, hd, SelectorGroup.matchesLoc]
    have hb : d ∈ Loc.selectAll l ⟨[b]⟩ ↔ b.matchesLoc d (some l) = true := by
      simp [Loc.selectAll, List.mem_filter, hd, SelectorGroup.matchesLoc]
    cases hma : a.matchesLoc d (some l) <;> cases hmb : b.matchesLoc d (some l) <;>
      simp [SelectorGroup.matchesLoc, ha, hb, hma, hmb, hd]
  · unfold Loc.selectAll
    apply List.filter_congr
    intro d _
    simp [SelectorGroup.matchesLoc, Bool.or_comm]

/-- C1 (divergence witness): in the chain `<a><b><c/></b></a>`, match
node `c` against selector `a c` with `root = b`.  The root-bounded
ancestor scan (`ancestors(root=b)`) is just `[b]`, and the previous
sequence `a` matches no node in it; yet `Selector.matches` returns
`True`, because its descendant branch scans `node.ancestors()` without
the `root` bound and finds `a` strictly above `root` — contradicting
the docstring's "parent/ancestor lookup terminates at `root`". -/
theorem descendant_combinator_ignores_root_bound :
    (Selector.mk (some "c") [] none [] (some .DESCENDANT)
        (some (Selector.mk (some "a") [] none [] none none))).matchesLoc
      (Loc.mk (Node.element "a" [] [Node.element "b" [] [Node.element "c" [] []]])
        [0, 0])
      (some (Loc.mk (Node.element "a" [] [Node.element "b" [] [Node.element "c" [] []]])
        [0])) = true ∧
    (Loc.mk (Node.element "a" [] [Node.element "b" [] [Node.element "c" [] []]])
        [0, 0]).ancestors
      (some (Loc.mk (Node.element "a" [] [Node.element "b" [] [Node.element "c" [] []]])
        [0])) =
      .ok [Loc.mk (Node.element "a" [] [Node.element "b" [] [Node.element "c" [] []]])
        [0]] ∧
    (Selector.mk (some "a") [] none [] none none).matchesLoc
      (Loc.mk (Node.element "a" [] [Node.element "b" [] [Node.element "c" [] []]])
        [0])
      (some (Loc.mk (Node.element "a" [] [Node.element "b" [] [Node.element "c" [] []]])
        [0])) = false := by
  refine ⟨by rfl, by rfl, by rfl⟩

/-- The ancestor chain as seen by the walk starting at ancestor
`⟨t, r⟩`: that ancestor followed by all its own ancestors. -/
def chainFrom (t : Node) (r : List Nat) : List Loc :=
  Loc.mk t r :: (properTails r).map (Loc.mk t)

/-- Every proper tail is strictly shorter than the list. -/
theorem properTails_length : ∀ (r : List Nat), ∀ x ∈ properTails r, x.length < r.length
  | [] => by intro x hx; simp [properTails] at hx
  | i :: r' => by
    intro x hx
    simp only [properTails, List.mem_cons] at hx
    rcases hx with rfl | hx
    · simp
    · exact Nat.lt_trans (properTails_length r' x hx) (by simp)

/-- The ancestor chain of `⟨t, i :: r⟩` is the walk chain from `⟨t, r⟩`. -/
theorem ancestorLocs_cons (t : Node) (i : Nat) (r : List Nat) :
    (Loc.mk t (i :: r)).ancestorLocs = chainFrom t r := by
  simp [Loc.ancestorLocs, properTails, chainFrom]

/-- A walk with no `root` yields the whole chain and never fails. -/
theorem ancestorsWalk_none : ∀ (r : List Nat) (t : Node) (acc : List Loc),
    ancestorsWalk t none r acc = .ok (acc ++ chainFrom t r)
  | [], t, acc => by simp [ancestorsWalk, chainFrom, properTails]
  | i :: r', t, acc => by
    rw [ancestorsWalk]
    simp only [reduceCtorEq, if_false]
    rw [ancestorsWalk_none r' t (acc ++ [Loc.mk t (i :: r')])]
    simp [chainFrom, properTails]

/-- A walk whose `root` lies on the chain stops just before it and
yields `root` last. -/
theorem ancestorsWalk_mem : ∀ (r : List Nat) (t : Node) (acc : List Loc) (r' : Loc),
    r' ∈ chainFrom t r →
    ancestorsWalk t (some r') r acc =
      .ok (acc ++ (chainFrom t r).takeWhile (fun a => decide (a ≠ r')) ++ [r'])
  | r, t, acc, r' => by
    intro hmem
    by_cases hh : r' = Loc.mk t r
    · subst hh
      cases r with
      | nil => simp [ancestorsWalk, chainFrom]
      | cons i r'' => simp [ancestorsWalk, chainFrom]
    · have hne : ¬ (some r' = some (Loc.mk t r)) := by simpa using hh
      simp only [chainFrom, List.mem_cons] at hmem
      rcases hmem with h | hmem
      · exact absurd h hh
      · cases r with
        | nil => simp [properTails] at hmem
        | cons i r'' =>
          rw [ancestorsWalk, if_neg hne]
          simp only [properTails, List.map_cons, List.mem_cons] at hmem
          have hmem' : r' ∈ chainFrom t r'' := by
            simpa [chainFrom] using hmem
          rw [ancestorsWalk_mem r'' t (acc ++ [Loc.mk t (i :: r'')]) r' hmem']
          have hcons : chainFrom t (i :: r'') =
              Loc.mk t (i :: r'') :: chainFrom t r'' := by
            simp [chainFrom, properTails]
          rw [hcons, List.takeWhile_cons]
          have hd : decide (Loc.mk t (i :: r'') ≠ r') = true := by
            simp only [decide_eq_true_eq, Ne]
            intro h
            exact hh h.symm
          rw [hd]
          simp

/-- A walk whose `root` is absent from the chain raises. -/
theorem ancestorsWalk_not_mem : ∀ (r : List Nat) (t : Node) (acc : List Loc) (r' : Loc),
    r' ∉ chainFrom t r →
    ancestorsWalk t (some r') r acc =
      .error "provided root node not found in ancestral chain"
  | r, t, acc, r' => by
    intro hmem
    have hh : r' ≠ Loc.mk t r := by
      intro h; exact hmem (by simp [chainFrom, h])
    have hne : ¬ (some r' = some (Loc.mk t r)) := by simpa using hh
    cases r with
    | nil => rw [ancestorsWalk, if_neg hne]
    | cons i r'' =>
      rw [ancestorsWalk, if_neg hne]
      have hmem' : r' ∉ chainFrom t r'' := by
        intro hc
        apply hmem
        simp only [chainFrom, properTails, List.map_cons, List.mem_cons]
        simp only [chainFrom, List.mem_cons] at hc
        tauto
      exact ancestorsWalk_not_mem r'' t (acc ++ [Loc.mk t (i :: r'')]) r' hmem'

/-- C5 (counterexample): for a parentless node `n`, calling
`ancestors(root=n)` returns an empty result with no error, although `n`
is not in its own (empty) proper-ancestor chain — the `if self is root:
return` short-circuit, pinned by the repository's own test
`main.ancestors(root=main) == []`. -/
theorem ancestors_root_self_counterexample :
    (Loc.mk (Node.element "a" [] []) []).ancestorLocs = [] ∧
    (Loc.mk (Node.element "a" [] []) []).ancestors
      (some (Loc.mk (Node.element "a" [] []) [])) = .ok [] :=
  ⟨rfl, rfl⟩

/-- C5 (amended): `ancestors(root=r)` yields the proper ancestors from
the immediate parent upward stopping just before `r`, then `r` itself
last, when `r` is an ancestor; with no `root` it yields the whole chain
(empty for a parentless node, without error); it raises exactly when a
`root` is supplied that is neither the node itself nor one of its
ancestors — when `r` is the node itself the result is empty, not an
error. -/
theorem ancestors_characterization (l : Loc) :
    (l.ancestors none = .ok l.ancestorLocs) ∧
    (l.ancestors (some l) = .ok []) ∧
    (∀ r', r' ∈ l.ancestorLocs →
      l.ancestors (some r') =
        .ok (l.ancestorLocs.takeWhile (fun a => decide (a ≠ r')) ++ [r'])) ∧
    (∀ r', r' ≠ l → r' ∉ l.ancestorLocs →
      l.ancestors (some r') =
        .error "provided root node not found in ancestral chain") := by
  obtain ⟨t, rp⟩ := l
  refine ⟨?_, ?_, ?_, ?_⟩
  · cases rp with
    | nil => simp [Loc.ancestors, Loc.ancestorLocs, properTails]
    | cons i r =>
      rw [Loc.ancestors]
      simp only [reduceCtorEq, if_false]
      rw [ancestorsWalk_none r t [], ancestorLocs_cons]
      simp
  · simp [Loc.ancestors]
  · intro r' hmem
    have hlen : r'.rpath.length < rp.length := by
      have := properTails_length rp
      simp only [Loc.ancestorLocs, List.mem_map] at hmem
      obtain ⟨x, hx, rfl⟩ := hmem
      exact this x hx
    have hne : ¬ (some r' = some (Loc.mk t rp)) := by
      simp only [Option.some.injEq]
      intro h
      rw [h] at hlen
      exact absurd hlen (by simp)
    cases rp with
    | nil => simp [Loc.ancestorLocs, properTails] at hmem
    | cons i r =>
      have hred : (Loc.mk t (i :: r)).ancestors (some r') =
          ancestorsWalk t (some r') r [] := by
        rw [Loc.ancestors, if_neg hne]
      rw [hred, ancestorsWalk_mem r t [] r' (by rwa [ancestorLocs_cons] at hmem),
        ancestorLocs_cons]
      simp
  · intro r' hne' hmem
    have hne : ¬ (some r' = some (Loc.mk t rp)) := by simpa using hne'
    cases rp with
    | nil =>
      rw [Loc.ancestors, if_neg hne]
    | cons i r =>
      rw [Loc.ancestors, if_neg hne]
      exact ancestorsWalk_not_mem r t [] r' (by rwa [ancestorLocs_cons] at hmem)

/-- Witness for C5 (amended) on the chain `<a><b><c/></b></a>`: from
`c`, `ancestors(root=a)` yields `[b, a]`, and `ancestors` with a root
outside the chain raises. -/
theorem ancestors_characterization_witness :
    (Loc.mk (Node.element "a" [] [Node.element "b" [] [Node.element "c" [] []]])
        [0, 0]).ancestors
      (some (Loc.mk (Node.element "a" [] [Node.element "b" [] [Node.element "c" [] []]])
        [])) =
      .ok [Loc.mk (Node.element "a" [] [Node.element "b" [] [Node.element "c" [] []]])
            [0],
           Loc.mk (Node.element "a" [] [Node.element "b" [] [Node.element "c" [] []]])
            []] ∧
    (Loc.mk (Node.element "a" [] [Node.element "b" [] [Node.element "c" [] []]])
        [0, 0]).ancestors
      (some (Loc.mk (Node.element "a" [] [Node.element "b" [] [Node.element "c" [] []]])
        [5])) =
      .error "provided root node not found in ancestral chain" := by
  constructor
  · rw [(ancestors_characterization _).2.2.1 _ (by decide)]
    rfl
  · exact (ancestors_characterization _).2.2.2 _ (by decide) (by decide)

/-- Splitting a stack as closed entries above the first open entry:
`takeWhile`/`dropWhile` with the not-open predicate recover the two
parts. -/
theorem stack_split_takeWhile (closed : List StackEntry) (pe : StackEntry)
    (rest : List StackEntry) (hc : ∀ e ∈ closed, e.opened = false)
    (hp : pe.opened = true) :
    (closed ++ pe :: rest).takeWhile (fun e => !e.opened) = closed ∧
    (closed ++ pe :: rest).dropWhile (fun e => !e.opened) = pe :: rest := by
  induction closed with
  | nil => simp [List.takeWhile_cons, List.dropWhile_cons, hp]
  | cons c cs ih =>
    have hc0 : c.opened = false := hc c (by simp)
    have hcs : ∀ e ∈ cs, e.opened = false := fun e he => hc e (by simp [he])
    obtain ⟨h1, h2⟩ := ih hcs
    simp [List.takeWhile_cons, List.dropWhile_cons, hc0, h1, h2]

/-- C3: `handle_endtag` pops exactly the closed entries above the
topmost open entry and installs them, in reverse pop order, as that
node's children (parenthood in this embedding being containment in the
rebuilt node); with no open entry on the stack it reports an extra end
tag at the current position; with an open entry whose tag differs from
the lowercased incoming name it reports a mismatch at the current
position; otherwise the rebuilt node is closed (`opened := false`). -/
theorem handle_endtag_cases (st : DOMBuilderState) (tag0 : String) :
    ((∀ e ∈ st.stack, e.opened = false) →
      handle_endtag st tag0 =
        .error ⟨st.pos, "extra end tag: " ++ pyToLower tag0⟩) ∧
    (∀ closed pe rest, st.stack = closed ++ pe :: rest →
      (∀ e ∈ closed, e.opened = false) → pe.opened = true →
      ((pe.node.tagOf ≠ some (pyToLower tag0) →
        handle_endtag st tag0 = .error ⟨st.pos, "expecting end tag " ++
          ((pe.node.tagOf).getD "None") ++ ", got " ++ pyToLower tag0⟩) ∧
       (pe.node.tagOf = some (pyToLower tag0) →
        handle_endtag st tag0 = .ok { st with stack :=
          ⟨pe.node.withChildren ((closed.map StackEntry.node).reverse), false⟩
            :: rest }))) := by
  constructor
  · intro hall
    have h2 : st.stack.dropWhile (fun e => !e.opened) = [] := by
      rw [List.dropWhile_eq_nil_iff]
      intro x hx
      simp [hall x hx]
    simp [handle_endtag, h2]
  · intro closed pe rest hsplit hc hp
    obtain ⟨h1, h2⟩ := stack_split_takeWhile closed pe rest hc hp
    constructor
    · intro hne
      simp only [handle_endtag, hsplit, h1, h2]
      rw [if_pos hne]
    · intro heq
      simp only [handle_endtag, hsplit, h1, h2]
      rw [if_neg (by simp [heq])]

/-- Witness for C3: ending `b` over the stack
`[text "x" (closed), b (open), a (open)]` installs the text as `b`'s
child and closes it; ending `c` there is a mismatch; ending anything
over a fully closed stack is an extra end tag. -/
theorem handle_endtag_cases_witness :
    handle_endtag
      ⟨[⟨Node.text "x", false⟩, ⟨Node.element "b" [] [], true⟩,
        ⟨Node.element "a" [] [], true⟩], (3, 7)⟩ "B" =
      .ok ⟨[⟨Node.element "b" [] [Node.text "x"], false⟩,
        ⟨Node.element "a" [] [], true⟩], (3, 7)⟩ ∧
    handle_endtag
      ⟨[⟨Node.text "x", false⟩, ⟨Node.element "b" [] [], true⟩,
        ⟨Node.element "a" [] [], true⟩], (3, 7)⟩ "c" =
      .error ⟨(3, 7), "expecting end tag b, got c"⟩ ∧
    handle_endtag ⟨[⟨Node.element "a" [] [], false⟩], (2, 4)⟩ "a" =
      .error ⟨(2, 4), "extra end tag: a"⟩ := by
  refine ⟨?_, ?_, ?_⟩
  · exact ((handle_endtag_cases _ "B").2 [⟨Node.text "x", false⟩]
      ⟨Node.element "b" [] [], true⟩ [⟨Node.element "a" [] [], true⟩]
      rfl (by decide) rfl).2 (by decide)
  · exact ((handle_endtag_cases _ "c").2 [⟨Node.text "x", false⟩]
      ⟨Node.element "b" [] [], true⟩ [⟨Node.element "a" [] [], true⟩]
      rfl (by decide) rfl).1 (by decide)
  · exact (handle_endtag_cases _ "a").1 (by decide)

/-- C4: completion and error behavior of the builder.  (i) `root`
raises exactly when the stack is empty or the bottom-of-stack entry is
still open.  (ii) Once any event-handling step raises a construction
error (in particular a mismatched or extra end tag), the whole run over
any extension of the stream fails with that error — no partial tree is
produced.  (iii) A successful run always returns the closed
bottom-of-stack node. -/
theorem builder_root_errors (st : DOMBuilderState) :
    ((∃ e, st.root = .error e) ↔
      (st.stack = [] ∨ ∃ en, st.stack.getLast? = some en ∧ en.opened = true)) ∧
    (∀ (pre : List ((Nat × Nat) × Event)) (st' : DOMBuilderState) ev err post,
      processEvents initBuilder pre = .ok st' → feedEvent st' ev = .error err →
      runEvents (pre ++ ev :: post) = .error err) ∧
    (∀ evs n, runEvents evs = .ok n →
      ∃ stf en, processEvents initBuilder evs = .ok stf ∧
        stf.stack.getLast? = some en ∧ en.opened = false ∧ n = en.node) := by
  refine ⟨?_, ?_, ?_⟩
  · cases hl : st.stack.getLast? with
    | none =>
      have hnil : st.stack = [] := List.getLast?_eq_none_iff.mp hl
      constructor
      · intro _
        exact Or.inl hnil
      · intro _
        exact ⟨⟨st.pos, "no root tag"⟩, by simp [DOMBuilderState.root, hl]⟩
    | some en =>
      have hne : st.stack ≠ [] := by
        intro h
        rw [h] at hl
        simp at hl
      by_cases hop : en.opened = true
      · constructor
        · intro _
          exact Or.inr ⟨en, rfl, hop⟩
        · intro _
          exact ⟨⟨st.pos, "root tag not closed yet"⟩,
            by simp [DOMBuilderState.root, hl, hop]⟩
      · constructor
        · intro ⟨e, he⟩
          simp only [DOMBuilderState.root, hl] at he
          rw [if_neg hop] at he
          exact absurd he (by simp)
        · intro h
          rcases h with h | ⟨en', hl', hop'⟩
          · exact absurd h hne
          · cases Option.some.inj hl'
            exact absurd hop' hop
  · intro pre st' ev err post hpre hstep
    have : processEvents initBuilder (pre ++ ev :: post) = .error err := by
      rw [processEvents, List.foldlM_append]
      rw [processEvents] at hpre
      rw [hpre]
      show (feedEvent st' ev >>= fun b => List.foldlM feedEvent b post) = .error err
      rw [hstep]
      rfl
    rw [runEvents, this]
    rfl
  · intro evs n hrun
    rw [runEvents] at hrun
    cases hp : processEvents initBuilder evs with
    | error e => rw [hp] at hrun; exact absurd hrun (by simp [Except.bind])
    | ok stf =>
      rw [hp] at hrun
      have hroot : stf.root = .ok n := hrun
      cases hl : stf.stack.getLast? with
      | none =>
        simp only [DOMBuilderState.root, hl] at hroot
        exact absurd hroot (by simp)
      | some en =>
        simp only [DOMBuilderState.root, hl] at hroot
        by_cases hop : en.opened = true
        · rw [if_pos hop] at hroot; exact absurd hroot (by simp)
        · rw [if_neg hop] at hroot
          refine ⟨stf, en, rfl, hl, by simpa using hop, ?_⟩
          cases hroot
          rfl

/-- Witness for C4: the events of `<p>hello</div>` fail with the
mismatch error and position; the events of `<p>x</p>` succeed with the
closed bottom node. -/
theorem builder_root_errors_witness :
    runEvents [((1, 0), .startTag "p" []), ((1, 3), .textData "hello"),
      ((1, 8), .endTag "div")] =
      .error ⟨(1, 8), "expecting end tag p, got div"⟩ ∧
    (∃ stf en, processEvents initBuilder
        [((1, 0), .startTag "p" []), ((1, 3), .textData "x"), ((1, 4), .endTag "p")] =
        .ok stf ∧ stf.stack.getLast? = some en ∧ en.opened = false ∧
        Node.element "p" [] [Node.text "x"] = en.node) := by
  constructor
  · exact (builder_root_errors initBuilder).2.1
      [((1, 0), .startTag "p" []), ((1, 3), .textData "hello")]
      ⟨[⟨Node.text "hello", false⟩, ⟨Node.element "p" [] [], true⟩], (1, 3)⟩
      ((1, 8), .endTag "div") ⟨(1, 8), "expecting end tag p, got div"⟩ []
      (by rfl) (by rfl)
  · exact (builder_root_errors initBuilder).2.2
      [((1, 0), .startTag "p" []), ((1, 3), .textData "x"), ((1, 4), .endTag "p")]
      (Node.element "p" [] [Node.text "x"]) (by rfl)

/-- C8: the self-closing spelling (`handle_startendtag`) and the
unclosed spelling (`handle_starttag`) of a void element produce the same
builder step, hence identical trees in any event context; both spellings
of `<img src="x">` build the same node, which renders in the canonical
self-closing form `<img src="x"/>`. -/
theorem void_element_spellings (st : DOMBuilderState) (tag : String)
    (attrs : List (String × String)) :
    (stepEvent st (.startEndTag tag attrs) = stepEvent st (.startTag tag attrs)) ∧
    (tagIsVoid tag = true →
      ∀ (evs1 evs2 : List ((Nat × Nat) × Event)) (p : Nat × Nat),
        runEvents (evs1 ++ (p, .startEndTag tag attrs) :: evs2) =
          runEvents (evs1 ++ (p, .startTag tag attrs) :: evs2)) ∧
    runEvents [((1, 0), .startEndTag "img" [("src", "x")])] =
      .ok (Node.element "img" [("src", "x")] []) ∧
    runEvents [((1, 0), .startTag "img" [("src", "x")])] =
      .ok (Node.element "img" [("src", "x")] []) ∧
    Node.render (Node.element "img" [("src", "x")] []) = "<img src=\"x\"/>" := by
  refine ⟨rfl, ?_, by rfl, by rfl, by rfl⟩
  intro _ evs1 evs2 p
  rw [runEvents, runEvents, processEvents, processEvents,
    List.foldlM_append, List.foldlM_append]
  rfl

/-- Witness for C8: the spelling equivalence instantiated at the void
tag `img` inside a surrounding document. -/
theorem void_element_spellings_witness :
    runEvents [((1, 0), .startTag "p" []),
      ((1, 3), .startEndTag "img" [("src", "x")]), ((1, 20), .endTag "p")] =
    runEvents [((1, 0), .startTag "p" []),
      ((1, 3), .startTag "img" [("src", "x")]), ((1, 20), .endTag "p")] :=
  (void_element_spellings initBuilder "img" [("src", "x")]).2.1 (by rfl)
    [((1, 0), .startTag "p" [])] [((1, 20), .endTag "p")] (1, 3)

/-- C10: whenever the bottom-of-stack entry exists and is closed, `root`
succeeds with exactly that node, regardless of what else the stack
holds; a stream with two complete top-level elements (`<a></a><b></b>`)
leaves both on the stack, and `root` silently returns only the first. -/
theorem multiple_toplevel_roots (st : DOMBuilderState) (en : StackEntry) :
    (st.stack.getLast? = some en → en.opened = false → st.root = .ok en.node) ∧
    (processEvents initBuilder [((1, 0), .startTag "a" []), ((1, 3), .endTag "a"),
        ((2, 0), .startTag "b" []), ((2, 3), .endTag "b")] =
      .ok ⟨[⟨Node.element "b" [] [], false⟩, ⟨Node.element "a" [] [], false⟩],
        (2, 3)⟩) ∧
    (runEvents [((1, 0), .startTag "a" []), ((1, 3), .endTag "a"),
        ((2, 0), .startTag "b" []), ((2, 3), .endTag "b")] =
      .ok (Node.element "a" [] [])) := by
  refine ⟨?_, by rfl, by rfl⟩
  intro hl hop
  simp [DOMBuilderState.root, hl, hop]

/-- Witness for C10: the general `root` fact applied to the final state
of the `<a></a><b></b>` run. -/
theorem multiple_toplevel_roots_witness :
    DOMBuilderState.root ⟨[⟨Node.element "b" [] [], false⟩,
      ⟨Node.element "a" [] [], false⟩], (2, 3)⟩ = .ok (Node.element "a" [] []) :=
  (multiple_toplevel_roots ⟨[⟨Node.element "b" [] [], false⟩,
      ⟨Node.element "a" [] [], false⟩], (2, 3)⟩
    ⟨Node.element "a" [] [], false⟩).1 rfl rfl

/-- C6: the parser rejects a second type selector or a second ID
selector inside one simple-selector sequence with a dedicated syntax
error instead of overwriting the earlier requirement (no last-one-wins),
shown in general for the simple-selector step and end-to-end for
`#id1#id2` and `th[attr]td` (the latter from the repository's own test
suite). -/
theorem duplicate_tag_or_id_is_parse_error :
    (∀ (s : String) (cs : List Char) (i : Nat) (acc : SeqAcc),
      truthyOpt acc.tag = true → (typeSelEnd cs i).isSome = true →
      parseSimpleSelector s cs i acc =
        .error ⟨s, i, "multiple type selectors found"⟩) ∧
    (∀ (s : String) (cs : List Char) (i : Nat) (acc : SeqAcc),
      truthyOpt acc.id = true → (idSelMatch cs i).isSome = true →
      parseSimpleSelector s cs i acc =
        .error ⟨s, i, "multiple id selectors found"⟩) ∧
    SelectorGroup.from_str "#id1#id2" =
      .error ⟨"#id1#id2", 4, "multiple id selectors found"⟩ ∧
    SelectorGroup.from_str "th[attr]td" =
      .error ⟨"th[attr]td", 8, "multiple type selectors found"⟩ := by
  refine ⟨?_, ?_, by rfl, by rfl⟩
  · intro s cs i acc htag hts
    obtain ⟨e, he⟩ := Option.isSome_iff_exists.mp hts
    simp [parseSimpleSelector, he, htag]
  · intro s cs i acc hid his
    have hch : cs[i]? = some '#' := by
      by_contra h
      simp [idSelMatch, h] at his
    have hlt : i < cs.length := by
      by_contra h
      rw [List.getElem?_eq_none (by omega)] at hch
      exact absurd hch (by simp)
    have hgi : cs[i] = '#' := by
      have := List.getElem?_eq_getElem hlt
      rw [hch] at this
      exact (Option.some.inj this).symm
    have hdrop : cs.drop i = '#' :: cs.drop (i + 1) := by
      rw [List.drop_eq_getElem_cons hlt, hgi]
    have hwh : pyIsWordHyphen '#' = false := by decide
    have htype : typeSelEnd cs i = none := by
      simp [typeSelEnd, hdrop, takeRun, hwh]
    have huniv : universalSelEnd cs i = none := by
      simp [universalSelEnd, hch]
    have hattr : attrSelMatch cs i = none := by
      simp [attrSelMatch, hch]
    have hclass : classSelMatch cs i = none := by
      simp [classSelMatch, hch]
    obtain ⟨e, he⟩ := Option.isSome_iff_exists.mp his
    simp [parseSimpleSelector, htype, huniv, hattr, hclass, he, hid]

/-- Witness for C6 on concrete accumulator states: with a tag already
recorded, a type selector at the cursor is rejected; with an ID already
recorded, an ID selector at the cursor is rejected. -/
theorem duplicate_tag_or_id_is_parse_error_witness :
    parseSimpleSelector "pp" "pp".data 1 ⟨some "p", [], none, []⟩ =
      .error ⟨"pp", 1, "multiple type selectors found"⟩ ∧
    parseSimpleSelector "#a#b" "#a#b".data 2 ⟨none, [], some "a", []⟩ =
      .error ⟨"#a#b", 2, "multiple id selectors found"⟩ :=
  ⟨duplicate_tag_or_id_is_parse_error.1 "pp" "pp".data 1 ⟨some "p", [], none, []⟩
      (by rfl) (by rfl),
   duplicate_tag_or_id_is_parse_error.2.1 "#a#b" "#a#b".data 2 ⟨none, [], some "a", []⟩
      (by rfl) (by rfl)⟩
